import Mathlib

/-!
The Core write path of zapcore/core.go and its Elasticsearch mirror.

A shallow embedding of `src/zapcore/core.go` (`nopCore`, `ioCore`, `SyncEs`,
`GetHost`, `Ordinary`, `Trace`) together with models of the library calls the
file makes (`strings.Split`, `time.ParseInLocation`, `Time.UnixNano`,
`json.Unmarshal` into `ReqData`).

Conventions.
* Go `string` is `String`; scanning is done on the character list.
* Go `int64` is `Int`, wrapped explicitly by `wrapInt64` where the Go
  arithmetic can overflow.
* Calls with an observable effect append an `Effect` to a trace, in program
  order. A Go run-time panic is an explicit outcome.
-/

namespace Zapcore

/-! ## Library model: `strings.Split` -/

/-- Split a character list at every occurrence of `sep`; the result always has
one more element than there are separators (so it is never empty). -/
def splitChars (sep : Char) : List Char → List (List Char)
  | [] => [[]]
  | c :: cs =>
    if c = sep then [] :: splitChars sep cs
    else
      match splitChars sep cs with
      | [] => [[c]]
      | f :: fs => (c :: f) :: fs

/-- Go `strings.Split(text, sep)` for a one-byte separator, as used by `SyncEs`
with `"\t"`. -/
def Split (text : String) (sep : Char) : List String :=
  (splitChars sep text.data).map String.mk

/-! ## Library model: `time` -/

/-- Go `int64` wrap-around of an integer result. -/
def wrapInt64 (x : Int) : Int :=
  (x + 2 ^ 63) % 2 ^ 64 - 2 ^ 63

/-- Go `time.Time`, reduced to what `SyncEs` observes: seconds since the Unix
epoch and the nanosecond within the second. -/
structure Time where
  unixSec : Int
  nsec : Int
  deriving DecidableEq, Repr

/-- The zero `time.Time{}`: January 1, year 1, 00:00:00 UTC. -/
def Time.zero : Time := { unixSec := -62135596800, nsec := 0 }

/-- Go `Time.UnixNano`: `unixSec*1e9 + nsec` computed in `int64`. -/
def Time.UnixNano (t : Time) : Int :=
  wrapInt64 (t.unixSec * 1000000000 + t.nsec)

/-- Go `*time.Location`, reduced to its `lookup`: for a Unix time, the zone
offset in seconds east of UTC and the half-open interval of Unix times on
which that zone is in effect. -/
structure Location where
  lookup : Int → Int × Int × Int

/-- A location with a fixed offset in effect at all times. -/
def Location.fixed (offset : Int) : Location :=
  { lookup := fun _ => (offset, -(2 ^ 63), 2 ^ 63 - 1) }

/-- The UTC location. -/
def Location.UTC : Location := Location.fixed 0

/-- Go `time.isDigit` on the head of the remaining input, giving the digit. -/
def digitVal (c : Char) : Option Nat :=
  if '0' ≤ c ∧ c ≤ '9' then some (c.toNat - '0'.toNat) else none

/-- Go `time.getnum`: one or two leading digits (`fixed` demands two). -/
def getnum (s : List Char) (fixed : Bool) : Option (Nat × List Char) :=
  match s with
  | [] => none
  | a :: rest =>
    match digitVal a with
    | none => none
    | some x =>
      match rest with
      | [] => if fixed then none else some (x, rest)
      | b :: rest2 =>
        match digitVal b with
        | none => if fixed then none else some (x, rest)
        | some y => some (x * 10 + y, rest2)

/-- Go `time.skip` for a one-byte literal prefix other than a space. -/
def skipLit (c : Char) (value : List Char) : Option (List Char) :=
  match value with
  | [] => none
  | v :: rest => if v = c then some rest else none

/-- Go `time.cutspace`. -/
def cutspace : List Char → List Char
  | [] => []
  | c :: cs => if c = ' ' then cutspace cs else c :: cs

/-- Go `time.skip` for the one-space prefix: the value must be empty or start
with a space, and all its leading spaces are dropped. -/
def skipSpace (value : List Char) : Option (List Char) :=
  match value with
  | [] => some []
  | v :: _ => if v = ' ' then some (cutspace value) else none

/-- Go `time.commaOrPeriod`. -/
def commaOrPeriod (c : Char) : Bool := c = '.' || c = ','

/-- The leading decimal digits of the input and what follows them. -/
def spanDigits : List Char → List Nat × List Char
  | [] => ([], [])
  | c :: cs =>
    match digitVal c with
    | none => ([], c :: cs)
    | some d => ((spanDigits cs).1.cons d, (spanDigits cs).2)

/-- The value of a big-endian digit list. -/
def digitsValue (ds : List Nat) : Nat :=
  ds.foldl (fun acc d => acc * 10 + d) 0

/-- The `stdFracSecond9` step of `time.Parse` with `parseNanoseconds`: an
optional `.` or `,` followed by digits; at most nine digits count, scaled to
nanoseconds, and all the digits are consumed. -/
def parseFrac (value : List Char) : Nat × List Char :=
  match value with
  | p :: d :: rest =>
    if commaOrPeriod p ∧ (digitVal d).isSome then
      let ds := (spanDigits (d :: rest)).1.take 9
      (digitsValue ds * 10 ^ (9 - ds.length), (spanDigits (d :: rest)).2)
    else (0, value)
  | _ => (0, value)

/-- Go `time.isLeap`. -/
def isLeap (year : Int) : Bool :=
  year % 4 = 0 && (year % 100 ≠ 0 || year % 400 = 0)

/-- Go `time.daysIn`. -/
def daysIn (month : Nat) (year : Int) : Nat :=
  if month = 2 then (if isLeap year then 29 else 28)
  else if month = 4 ∨ month = 6 ∨ month = 9 ∨ month = 11 then 30
  else 31

/-- Days from January 1 of year 1 to January 1 of `year` (proleptic
Gregorian calendar). -/
def daysBeforeYear (year : Int) : Int :=
  365 * (year - 1) + (year - 1) / 4 - (year - 1) / 100 + (year - 1) / 400

/-- Days from January 1 to the first day of `month` within `year`. -/
def daysBeforeMonth (month : Nat) (year : Int) : Nat :=
  ((List.range (month - 1)).map (fun m => daysIn (m + 1) year)).sum

/-- Go `time.Date` for in-range fields: the civil time read in `loc`. -/
def Date (year : Int) (month day hour min sec nsec : Nat) (loc : Location) : Time :=
  let days : Int := daysBeforeYear year + daysBeforeMonth month year + (day - 1 : Nat)
  let unix : Int := days * 86400 + hour * 3600 + min * 60 + sec - 62135596800
  let (offset, start, stop) := loc.lookup unix
  let unix2 : Int :=
    if offset ≠ 0 then
      let utc := unix - offset
      if utc < start ∨ utc ≥ stop then unix - (loc.lookup utc).1 else unix - offset
    else unix
  { unixSec := unix2, nsec := nsec }

/-- The four-digit year of `stdLongYear`. -/
def getYear (value : List Char) : Option (Nat × List Char) :=
  match value with
  | a :: b :: c :: d :: rest =>
    match digitVal a, digitVal b, digitVal c, digitVal d with
    | some w, some x, some y, some z => some (w * 1000 + x * 100 + y * 10 + z, rest)
    | _, _, _, _ => none
  | _ => none

/-- Go `time.ParseInLocation("2006-01-02 15:04:05.999", value, loc)`: `none`
stands for a returned error (in which case Go returns the zero `Time`). -/
def parseLayout (value : List Char) (loc : Location) : Option Time := do
  let (year, v) ← getYear value
  let v ← skipLit '-' v
  let (month, v) ← getnum v true
  if month = 0 ∨ 12 < month then none
  let v ← skipLit '-' v
  let (day, v) ← getnum v true
  let v ← skipSpace v
  let (hour, v) ← getnum v false
  if 24 ≤ hour then none
  let v ← skipLit ':' v
  let (min, v) ← getnum v true
  if 60 ≤ min then none
  let v ← skipLit ':' v
  let (sec, v) ← getnum v true
  if 60 ≤ sec then none
  let (nsec, v) := parseFrac v
  if v ≠ [] then none
  if day < 1 ∨ day > daysIn month year then none
  some (Date year month day hour min sec nsec loc)

/-- The call `time.ParseInLocation(layout, value, loc)` with both results. -/
def ParseInLocation (value : String) (loc : Location) : Time × Bool :=
  match parseLayout value.data loc with
  | some t => (t, true)
  | none => (Time.zero, false)

/-! ## Library model: `encoding/json` decoding into `ReqData` -/

/-- The Go struct `ReqData`: the correlation record carried by trace lines. -/
structure ReqData where
  Uid : Int
  Tid : Int
  Parent : Int
  deriving DecidableEq, Repr

/-- JSON insignificant white space. -/
def isJsonSpace (c : Char) : Bool :=
  c = ' ' || c = '\t' || c = '\r' || c = '\n'

/-- Drop leading JSON white space. -/
def skipWs : List Char → List Char
  | [] => []
  | c :: cs => if isJsonSpace c then skipWs cs else c :: cs

/-- The value of a hexadecimal digit. -/
def hexVal (c : Char) : Option Nat :=
  if '0' ≤ c ∧ c ≤ '9' then some (c.toNat - 48)
  else if 'a' ≤ c ∧ c ≤ 'f' then some (c.toNat - 87)
  else if 'A' ≤ c ∧ c ≤ 'F' then some (c.toNat - 55)
  else none

/-- The character denoted by a one-letter JSON escape. -/
def unescape (e : Char) : Option Char :=
  if e = '"' then some '"'
  else if e = '\\' then some '\\'
  else if e = '/' then some '/'
  else if e = 'b' then some (Char.ofNat 8)
  else if e = 'f' then some (Char.ofNat 12)
  else if e = 'n' then some '\n'
  else if e = 'r' then some '\r'
  else if e = 't' then some '\t'
  else none

/-- Scan a JSON string after its opening quote: the unquoted text and the
input after the closing quote, or `none` on a syntax error. A `\u` escape of a
surrogate half decodes to U+FFFD (the decoded text is only ever compared with
ASCII field names). -/
def scanString : List Char → Option (List Char × List Char)
  | [] => none
  | c :: rest =>
    if c = '"' then some ([], rest)
    else if c = '\\' then
      match rest with
      | [] => none
      | e :: rest1 =>
        if e = 'u' then
          match rest1 with
          | h1 :: h2 :: h3 :: h4 :: rest2 =>
            match hexVal h1, hexVal h2, hexVal h3, hexVal h4 with
            | some w, some x, some y, some z =>
              let n := w * 4096 + x * 256 + y * 16 + z
              let ch := if 0xD800 ≤ n ∧ n ≤ 0xDFFF then Char.ofNat 0xFFFD else Char.ofNat n
              (scanString rest2).map (fun p => (ch :: p.1, p.2))
            | _, _, _, _ => none
          | _ => none
        else
          match unescape e with
          | some ch => (scanString rest1).map (fun p => (ch :: p.1, p.2))
          | none => none
    else if c.toNat < 0x20 then none
    else (scanString rest).map (fun p => (c :: p.1, p.2))

/-- A scanned JSON number literal: its sign, the digits of its integer part,
and whether it has neither a fraction nor an exponent. -/
structure NumLit where
  neg : Bool
  intDigits : List Nat
  isInt : Bool
  deriving DecidableEq, Repr

/-- The exponent part of a JSON number, if any. -/
def scanExp (neg : Bool) (ds : List Nat) (isInt : Bool) (cs : List Char) :
    Option (NumLit × List Char) :=
  match cs with
  | e :: r1 =>
    if e = 'e' ∨ e = 'E' then
      let r2 := match r1 with
        | s :: r => if s = '+' ∨ s = '-' then r else r1
        | [] => r1
      if (spanDigits r2).1 = [] then none
      else some ({ neg := neg, intDigits := ds, isInt := false }, (spanDigits r2).2)
    else some ({ neg := neg, intDigits := ds, isInt := isInt }, cs)
  | [] => some ({ neg := neg, intDigits := ds, isInt := isInt }, cs)

/-- The fraction and exponent parts of a JSON number, if any. -/
def scanFrac (neg : Bool) (ds : List Nat) (cs : List Char) : Option (NumLit × List Char) :=
  match cs with
  | p :: r1 =>
    if p = '.' then
      if (spanDigits r1).1 = [] then none
      else scanExp neg ds false (spanDigits r1).2
    else scanExp neg ds true cs
  | [] => scanExp neg ds true cs

/-- The integer part of a JSON number (after the optional sign) and the rest
of the literal: a lone `0`, or a non-zero digit followed by digits. -/
def scanInt (neg : Bool) (cs : List Char) : Option (NumLit × List Char) :=
  match cs with
  | [] => none
  | c :: r =>
    if c = '0' then scanFrac neg [0] r
    else if '1' ≤ c ∧ c ≤ '9' then scanFrac neg (spanDigits (c :: r)).1 (spanDigits (c :: r)).2
    else none

/-- Scan a JSON number literal at the head of the input. -/
def scanNumber (cs : List Char) : Option (NumLit × List Char) :=
  match cs with
  | [] => none
  | c :: r => if c = '-' then scanInt true r else scanInt false cs

/-- Does a JSON value starting with this character have to be a number? -/
def startsNumber (c : Char) : Bool :=
  c = '-' || ('0' ≤ c && c ≤ '9')

/-- What the scanner expects next. -/
inductive Mode where
  | value
  | elems
  | members
  deriving DecidableEq, Repr

/-- Strip a fixed word from the head of the input. -/
def stripWord : List Char → List Char → Option (List Char)
  | [], cs => some cs
  | _ :: _, [] => none
  | w :: ws, c :: cs => if w = c then stripWord ws cs else none

/-- The constant `maxNestingDepth` of `encoding/json` (Go 1.15 and later): the
scanner refuses a document in which more than this many arrays and objects are
open at once. -/
def maxNestingDepth : Nat := 10000

/-- Validate and skip JSON text: in mode `value` one value; in mode `elems`
the elements of a non-empty array up to and including `]`; in mode `members`
the members of a non-empty object up to and including `}`. `depth` counts the
arrays and objects open around the text; opening one more beyond
`maxNestingDepth` is an error, as in the scanner's `pushParseState`. The
result is the input that follows, or `none` on a syntax error (or exhausted
fuel: a call nested `n` levels down has consumed at least `n / 2` characters,
so a fuel of twice the input length plus two is never exhausted). -/
def scanJson : Nat → Nat → Mode → List Char → Option (List Char)
  | 0, _, _, _ => none
  | fuel + 1, depth, Mode.value, cs =>
    match skipWs cs with
    | [] => none
    | c :: r =>
      if c = '{' then
        if maxNestingDepth < depth + 1 then none
        else
          match skipWs r with
          | [] => none
          | d :: r1 =>
            if d = '}' then some r1 else scanJson fuel (depth + 1) Mode.members (d :: r1)
      else if c = '[' then
        if maxNestingDepth < depth + 1 then none
        else
          match skipWs r with
          | [] => none
          | d :: r1 =>
            if d = ']' then some r1 else scanJson fuel (depth + 1) Mode.elems (d :: r1)
      else if c = '"' then (scanString r).map (fun p => p.2)
      else if c = 't' then stripWord "rue".data r
      else if c = 'f' then stripWord "alse".data r
      else if c = 'n' then stripWord "ull".data r
      else if startsNumber c then (scanNumber (c :: r)).map (fun p => p.2)
      else none
  | fuel + 1, depth, Mode.elems, cs =>
    match scanJson fuel depth Mode.value cs with
    | none => none
    | some r =>
      match skipWs r with
      | [] => none
      | d :: r1 =>
        if d = ',' then scanJson fuel depth Mode.elems r1
        else if d = ']' then some r1
        else none
  | fuel + 1, depth, Mode.members, cs =>
    match skipWs cs with
    | [] => none
    | q :: r =>
      if q = '"' then
        match scanString r with
        | none => none
        | some (_, r1) =>
          match skipWs r1 with
          | [] => none
          | col :: r2 =>
            if col = ':' then
              match scanJson fuel depth Mode.value r2 with
              | none => none
              | some r3 =>
                match skipWs r3 with
                | [] => none
                | d :: r4 =>
                  if d = ',' then scanJson fuel depth Mode.members r4
                  else if d = '}' then some r4
                  else none
            else none
      else none

/-- Go `strconv.ParseInt(lit, 10, 64)` on a JSON number literal: the value,
when the literal is a plain integer within `int64`. -/
def NumLit.toInt64 (n : NumLit) : Option Int :=
  if n.isInt then
    let v : Int := if n.neg then -(digitsValue n.intDigits : Int) else (digitsValue n.intDigits : Int)
    if -(2 ^ 63) ≤ v ∧ v ≤ 2 ^ 63 - 1 then some v else none
  else none

/-- Field lookup of `encoding/json` for `ReqData` (tags `uid`, `tid`,
`parent`): exact name first, then ASCII case-insensitive; then store an
in-range integer literal. Any other key or literal leaves the record as is. -/
def storeNumber (rd : ReqData) (key : List Char) (n : NumLit) : ReqData :=
  match n.toInt64 with
  | none => rd
  | some v =>
    if key.map Char.toLower = "uid".data then { rd with Uid := v }
    else if key.map Char.toLower = "tid".data then { rd with Tid := v }
    else if key.map Char.toLower = "parent".data then { rd with Parent := v }
    else rd

/-- Decode the members of the non-empty top-level JSON object (after `{`) into
a `ReqData`, up to and including the closing `}`. Number values are stored by
`storeNumber`; every other value is validated and skipped with one object
open around it (`null` is a no-op, any other kind is a type error that leaves
the field as is). -/
def objectInto : Nat → List Char → ReqData → Option (ReqData × List Char)
  | 0, _, _ => none
  | fuel + 1, cs, rd =>
    match skipWs cs with
    | [] => none
    | q :: r =>
      if q = '"' then
        match scanString r with
        | none => none
        | some (key, r1) =>
          match skipWs r1 with
          | [] => none
          | col :: r2 =>
            if col = ':' then
              let stored : Option (ReqData × List Char) :=
                match skipWs r2 with
                | [] => none
                | c :: r3 =>
                  if startsNumber c then
                    (scanNumber (c :: r3)).map (fun p => (storeNumber rd key p.1, p.2))
                  else (scanJson fuel 1 Mode.value (c :: r3)).map (fun rest => (rd, rest))
              match stored with
              | none => none
              | some (rd1, r4) =>
                match skipWs r4 with
                | [] => none
                | d :: r5 =>
                  if d = ',' then objectInto fuel r5 rd1
                  else if d = '}' then some (rd1, r5)
                  else none
            else none
      else none

/-- Go `json.Unmarshal([]byte(data), &v)` for `v : ReqData`, giving `v`
afterwards. The returned error is not modelled (`SyncEs` discards it). Invalid
JSON, nesting deeper than `maxNestingDepth` included, changes nothing (the
input is validated before anything is stored); a top-level value that is not
an object changes nothing either. -/
def Unmarshal (data : String) (v : ReqData) : ReqData :=
  match skipWs data.data with
  | [] => v
  | c :: r =>
    if c = '{' then
      match skipWs r with
      | [] => v
      | d :: r1 =>
        if d = '}' then v
        else
          match objectInto (2 * data.length + 2) (d :: r1) v with
          | none => v
          | some (rd, rest) => if skipWs rest = [] then rd else v
    else v

/-! ## Collaborators of the core (declared elsewhere in the package) -/

/-- The severity `Level` (a Go `int8`). -/
abbrev Level := Int

/-- A log `Entry`, reduced to the fields an encoder may read. -/
structure Entry where
  Level : Level
  LoggerName : String
  Message : String
  deriving DecidableEq, Repr

/-- A structured `Field`. -/
structure Field where
  Key : String
  Value : String
  deriving DecidableEq, Repr

/-- A Go `error` value. -/
structure Error where
  msg : String
  deriving DecidableEq, Repr

/-- A non-nil `*elastic.Client`. -/
structure Client where
  id : Nat
  deriving DecidableEq, Repr

/-- The interface `LevelEnabler`. -/
structure LevelEnabler where
  Enabled : Level → Bool

/-- Modelled from the spec: the `Encoder` interface (encoder.go is not part of
the sources). An encoder owns a field context; `EncodeEntry` renders an entry
with the context and the call-site fields, or fails. -/
structure Encoder where
  context : List Field
  render : List Field → Entry → List Field → Except Error String

/-- The call `enc.EncodeEntry(ent, fields)`; the buffer is its contents. -/
def Encoder.EncodeEntry (enc : Encoder) (ent : Entry) (fields : List Field) :
    Except Error String :=
  enc.render enc.context ent fields

/-- Modelled from the spec: `Encoder.Clone`, a copy with an isolated context. -/
def Encoder.Clone (enc : Encoder) : Encoder :=
  { context := enc.context, render := enc.render }

/-- Modelled from the spec: `addFields`, which adds the fields to an encoder's
context. -/
def addFields (enc : Encoder) (fields : List Field) : Encoder :=
  { enc with context := enc.context ++ fields }

/-- The interface `WriteSyncer`, by the results of its two calls: `Write`
gives the byte count and an error or nil, `Sync` an error or nil. -/
structure WriteSyncer where
  Write : String → Nat × Option Error
  Sync : Option Error

/-! ## The document and its indices -/

/-- The Go struct `Log`. -/
structure Log where
  Time : Int
  LogLevel : String
  Src : String
  ServerName : String
  Uid : Int
  Tid : Int
  Parent : Int
  Data : String
  deriving DecidableEq, Repr

/-- An interface address as `GetHost` inspects it: whether it is a
`*net.IPNet`, and then whether its IP is loopback, whether `To4()` is non-nil,
and its `String()`. -/
inductive Addr where
  | ipNet (isLoopback : Bool) (isV4 : Bool) (text : String)
  | other
  deriving DecidableEq, Repr

/-- What the process environment supplies: the result of
`net.InterfaceAddrs()` and the location `time.Local`. -/
structure Env where
  interfaceAddrs : Except Error (List Addr)
  Local : Location

/-- The function `GetHost`: the last non-loopback IPv4 address, or `""`. -/
def GetHost (addrs : Except Error (List Addr)) : String :=
  match addrs with
  | Except.error _ => ""
  | Except.ok as =>
    as.foldl
      (fun ip value =>
        match value with
        | Addr.ipNet isLoopback isV4 text => if !isLoopback && isV4 then text else ip
        | Addr.other => ip)
      ""

/-- The package variable `Ordinary`. -/
def Ordinary (env : Env) : String := "普通日志" ++ GetHost env.interfaceAddrs

/-- The package variable `Trace`. -/
def Trace (env : Env) : String := "链路日志" ++ GetHost env.interfaceAddrs

/-! ## Effects and outcomes -/

/-- The observable calls of the write path. -/
inductive Effect where
  | sinkWrite (bytes : String)
  | bufFree
  | sinkSync
  | save (client : Client) (doc : Log) (index : String) (typ : String) (time : Int)
  deriving DecidableEq, Repr

/-- A Go run-time panic. -/
inductive Panic where
  | indexOutOfRange (index length : Nat)
  deriving DecidableEq, Repr

/-- How a call ends: it returns its `error` result (or nil), or it panics. -/
inductive Outcome where
  | returned (err : Option Error)
  | panicked (p : Panic)
  deriving DecidableEq, Repr

/-- A run of `Write`: the calls made, in order, and how it ended. -/
structure Run where
  trace : List Effect
  outcome : Outcome
  deriving DecidableEq, Repr

/-- Is this effect a call of `esService.Save`? -/
def Effect.isSave : Effect → Bool
  | Effect.save _ _ _ _ _ => true
  | _ => false

/-! ## `SyncEs` -/

/-- The Go index expression `file[i]`, which panics out of range. -/
def index (file : List String) (i : Nat) : Except Panic String :=
  match file.get? i with
  | some s => Except.ok s
  | none => Except.error (Panic.indexOutOfRange i file.length)

/-- The function `SyncEs`: the `esService.Save` call it makes (whose result it
discards), or the panic it raises. -/
def SyncEs (env : Env) (text : String) (esClient : Client) : Except Panic (List Effect) := do
  let file := Split text '\t'
  let f0 ← index file 0
  let parseTime := (ParseInLocation f0 env.Local).1
  let time := parseTime.UnixNano.tdiv 1000000
  let f1 ← index file 1
  let f2 ← index file 2
  let f3 ← index file 3
  let f4 ← index file 4
  let log : Log :=
    { Time := time, LogLevel := f1, Src := f2, ServerName := f3,
      Uid := 0, Tid := 0, Parent := 0, Data := f4 }
  if log.ServerName = "trace" then
    let reqData := Unmarshal f4 { Uid := 0, Tid := 0, Parent := 0 }
    let log : Log :=
      { log with Uid := reqData.Uid, Tid := reqData.Tid, Parent := reqData.Parent }
    pure [Effect.save esClient log (Trace env) "log" log.Time]
  else
    pure [Effect.save esClient log (Ordinary env) "log" log.Time]

/-! ## `ioCore` and `nopCore` -/

/-- The struct `ioCore`; `EsClient` is `none` for a nil pointer. -/
structure ioCore where
  LevelEnabler : LevelEnabler
  enc : Encoder
  out : WriteSyncer
  outEs : Bool
  EsClient : Option Client

/-- The constructor `NewCore`. -/
def NewCore (enc : Encoder) (ws : WriteSyncer) (enab : LevelEnabler) (es : Bool)
    (esClient : Option Client) : ioCore :=
  { LevelEnabler := enab, enc := enc, out := ws, outEs := es, EsClient := esClient }

/-- The promoted method `Enabled` of the embedded `LevelEnabler`. -/
def ioCore.Enabled (c : ioCore) (lvl : Level) : Bool :=
  c.LevelEnabler.Enabled lvl

/-- The method `ioCore.clone`: the composite literal names four of the five
fields, so `EsClient` takes its zero value, nil. -/
def ioCore.clone (c : ioCore) : ioCore :=
  { LevelEnabler := c.LevelEnabler,
    enc := c.enc.Clone,
    out := c.out,
    outEs := c.outEs,
    EsClient := none }

/-- The method `ioCore.With`. -/
def ioCore.With (c : ioCore) (fields : List Field) : ioCore :=
  let clone := c.clone
  { clone with enc := addFields clone.enc fields }

/-- The method `ioCore.Sync`: the call made and its result. -/
def ioCore.Sync (c : ioCore) : List Effect × Option Error :=
  ([Effect.sinkSync], c.out.Sync)

/-- The method `ioCore.Write`. `ErrorLevel` is the package constant (level.go
is not part of the sources). The buffer is its contents: `buf.Free()` returns
it to the pool, and in a sequential run `buf.Bytes()` still gives the encoded
line when `SyncEs` reads it afterwards. -/
def ioCore.Write (ErrorLevel : Level) (env : Env) (c : ioCore) (ent : Entry)
    (fields : List Field) : Run :=
  match c.enc.EncodeEntry ent fields with
  | Except.error err => { trace := [], outcome := Outcome.returned (some err) }
  | Except.ok buf =>
    let t1 := [Effect.sinkWrite buf, Effect.bufFree]
    match (c.out.Write buf).2 with
    | some err => { trace := t1, outcome := Outcome.returned (some err) }
    | none =>
      let t2 := if ent.Level > ErrorLevel then t1 ++ c.Sync.1 else t1
      match c.outEs, c.EsClient with
      | true, some client =>
        match SyncEs env buf client with
        | Except.ok saves => { trace := t2 ++ saves, outcome := Outcome.returned none }
        | Except.error p => { trace := t2, outcome := Outcome.panicked p }
      | _, _ => { trace := t2, outcome := Outcome.returned none }

/-- The interface `Core`, by its two implementations in this file. -/
inductive Core where
  | nop
  | io (c : ioCore)

/-- The struct `CheckedEntry`, reduced to its entry and accumulated cores. -/
structure CheckedEntry where
  Entry : Entry
  cores : List Core

/-- Modelled from the spec: `CheckedEntry.AddCore` (entry.go is not part of the
sources) appends the core to the accumulator, allocating the accumulator for
this entry if it was absent, and returns it. -/
def CheckedEntry.AddCore (ce : Option CheckedEntry) (ent : Zapcore.Entry) (core : Core) :
    Option CheckedEntry :=
  match ce with
  | none => some { Entry := ent, cores := [core] }
  | some e => some { e with cores := e.cores ++ [core] }

/-- The cores accumulated in a possibly absent `CheckedEntry`. -/
def coresOf (ce : Option CheckedEntry) : List Core :=
  match ce with
  | none => []
  | some e => e.cores

/-- The method `ioCore.Check`. -/
def ioCore.Check (c : ioCore) (ent : Entry) (ce : Option CheckedEntry) :
    Option CheckedEntry :=
  if c.Enabled ent.Level then CheckedEntry.AddCore ce ent (Core.io c) else ce

/-- The method `nopCore.Enabled`. -/
def nopCore.Enabled (_ : Level) : Bool := false

/-- The method `nopCore.With`. -/
def nopCore.With (_ : List Field) : Core := Core.nop

/-- The method `nopCore.Check`. -/
def nopCore.Check (_ : Entry) (ce : Option CheckedEntry) : Option CheckedEntry := ce

/-- The method `nopCore.Write`. -/
def nopCore.Write (_ : Entry) (_ : List Field) : Run :=
  { trace := [], outcome := Outcome.returned none }

/-- The method `nopCore.Sync`. -/
def nopCore.Sync : List Effect × Option Error := ([], none)

/-! ## Concrete collaborators used in the examples -/

/-- An encoder that renders every entry as the given line. -/
def constEncoder (line : String) : Encoder :=
  { context := [], render := fun _ _ _ => Except.ok line }

/-- An encoder whose `EncodeEntry` always fails with the given error. -/
def failingEncoder (err : Error) : Encoder :=
  { context := [], render := fun _ _ _ => Except.error err }

/-- A sink whose `Write` and `Sync` give the stated results. -/
def sinkWith (writeErr syncErr : Option Error) : WriteSyncer :=
  { Write := fun bytes => (if writeErr = none then bytes.length else 0, writeErr),
    Sync := syncErr }

/-- A level enabler that accepts the levels at or above `min`. -/
def atLeast (min : Level) : LevelEnabler :=
  { Enabled := fun lvl => decide (min ≤ lvl) }

/-- An environment without network interfaces whose local zone is UTC. -/
def utcEnv : Env :=
  { interfaceAddrs := Except.ok [], Local := Location.UTC }

/-- An environment with one non-loopback IPv4 interface and a fixed local zone. -/
def hostEnv (offset : Int) : Env :=
  { interfaceAddrs := Except.ok [Addr.ipNet true true "127.0.0.1", Addr.ipNet false true "10.0.0.5"],
    Local := Location.fixed offset }

/-- An entry of the given level. -/
def entryAt (lvl : Level) : Entry :=
  { Level := lvl, LoggerName := "", Message := "boom" }

/-! ## Correlation payloads, as texts -/

/-- The three member names of a correlation record. -/
inductive CorrKey where
  | uid
  | tid
  | parent
  deriving DecidableEq, Repr

/-- The member name as written between the quotes. -/
def CorrKey.name : CorrKey → List Char
  | CorrKey.uid => "uid".data
  | CorrKey.tid => "tid".data
  | CorrKey.parent => "parent".data

/-- One member `"key": integer` of a correlation object as it stands in the
text: the key, the integer literal (an optional minus sign and the decimal
numeral of `mag`), and the white space before the key, before the colon,
after the colon and after the literal. -/
structure MemberText where
  key : CorrKey
  neg : Bool
  mag : Nat
  ws1 : List Char
  ws2 : List Char
  ws3 : List Char
  ws4 : List Char
  deriving DecidableEq, Repr

/-- The integer a member's literal denotes. -/
def MemberText.value (m : MemberText) : Int :=
  if m.neg then -(m.mag : Int) else (m.mag : Int)

/-- The characters of a member. -/
def MemberText.text (m : MemberText) : List Char :=
  m.ws1 ++ '"' :: (m.key.name ++ '"' :: (m.ws2 ++ ':' :: (m.ws3 ++
    ((if m.neg then ['-'] else []) ++ ((toString m.mag).data ++ m.ws4)))))

/-- The payload of the trace example line: `\x7b"uid":7,"tid":42,"parent":1\x7d`
with the braces written as escapes. -/
def tracePayload : String :=
  "\x7b\"uid\":7,\"tid\":42,\"parent\":1\x7d"

/-- The trace example line of the specification. -/
def traceLine : String :=
  "2023-01-01 10:00:00.000\tINFO\tmain.go:10\ttrace\t\x7b\"uid\":7,\"tid\":42,\"parent\":1\x7d"

/-- The same line with category `worker` and payload `hello`. -/
def workerLine : String :=
  "2023-01-01 10:00:00.000\tINFO\tmain.go:10\tworker\thello"

/-! ## Lemmas on `SyncEs` -/

/-- On a line of (at least) five fields `SyncEs` makes exactly one `Save`
call and does not panic. -/
theorem SyncEs_of_fields (env : Env) (text : String) (esClient : Client)
    (f0 f1 f2 f3 f4 : String) (more : List String)
    (h : Split text '\t' = f0 :: f1 :: f2 :: f3 :: f4 :: more) :
    SyncEs env text esClient =
      Except.ok [
        if f3 = "trace" then
          Effect.save esClient
            { Time := (ParseInLocation f0 env.Local).1.UnixNano.tdiv 1000000,
              LogLevel := f1, Src := f2, ServerName := f3,
              Uid := (Unmarshal f4 { Uid := 0, Tid := 0, Parent := 0 }).Uid,
              Tid := (Unmarshal f4 { Uid := 0, Tid := 0, Parent := 0 }).Tid,
              Parent := (Unmarshal f4 { Uid := 0, Tid := 0, Parent := 0 }).Parent,
              Data := f4 }
            (Trace env) "log" ((ParseInLocation f0 env.Local).1.UnixNano.tdiv 1000000)
        else
          Effect.save esClient
            { Time := (ParseInLocation f0 env.Local).1.UnixNano.tdiv 1000000,
              LogLevel := f1, Src := f2, ServerName := f3,
              Uid := 0, Tid := 0, Parent := 0, Data := f4 }
            (Ordinary env) "log" ((ParseInLocation f0 env.Local).1.UnixNano.tdiv 1000000)] := by
  unfold SyncEs
  rw [h]
  by_cases ht : f3 = "trace" <;> simp [index, ht, bind, Except.bind, pure, Except.pure]

/-- Every effect of `SyncEs` is a `Save` call. -/
theorem SyncEs_only_saves (env : Env) (text : String) (esClient : Client)
    (saves : List Effect) (h : SyncEs env text esClient = Except.ok saves) :
    ∀ e ∈ saves, e.isSave = true := by
  unfold SyncEs at h
  simp only [bind, Except.bind, pure, Except.pure] at h
  split at h
  · cases h
  split at h
  · cases h
  split at h
  · cases h
  split at h
  · cases h
  split at h
  · cases h
  split at h <;>
    (injection h with h; subst h; intro e he; simp at he; subst he; rfl)

/-- On a line of fewer than five fields `SyncEs` panics at the first index
past the end of the slice, before any `Save` call. -/
theorem SyncEs_short_line_panics (env : Env) (text : String) (esClient : Client)
    (h : (Split text '\t').length < 5) :
    SyncEs env text esClient =
      Except.error
        (Panic.indexOutOfRange (Split text '\t').length (Split text '\t').length) := by
  have hne : Split text '\t' ≠ [] := by
    unfold Split
    cases text.data with
    | nil => simp [splitChars]
    | cons c cs =>
      simp only [splitChars]
      split
      · simp
      · split <;> simp
  unfold SyncEs
  rcases hs : Split text '\t' with _ | ⟨a, _ | ⟨b, _ | ⟨c, _ | ⟨d, _ | ⟨e, l⟩⟩⟩⟩⟩
  · exact absurd hs hne
  · simp [index, bind, Except.bind]
  · simp [index, bind, Except.bind]
  · simp [index, bind, Except.bind]
  · simp [index, bind, Except.bind]
  · rw [hs, List.length_cons, List.length_cons, List.length_cons, List.length_cons,
      List.length_cons] at h
    omega

/-- The two index names differ, whatever the host. -/
theorem Ordinary_ne_Trace (env : Env) : Ordinary env ≠ Trace env := by
  intro h
  have h2 := congrArg String.data h
  simp [Ordinary, Trace, String.data_append] at h2

/-! ## The write path -/

/-- Unfolding of `Write` when encoding and the sink write both succeed. -/
theorem Write_of_written (ErrorLevel : Level) (env : Env) (c : ioCore) (ent : Entry)
    (fields : List Field) (buf : String)
    (henc : c.enc.EncodeEntry ent fields = Except.ok buf)
    (hw : (c.out.Write buf).2 = none) :
    c.Write ErrorLevel env ent fields =
      (match c.outEs, c.EsClient with
       | true, some client =>
         match SyncEs env buf client with
         | Except.ok saves =>
           { trace := (if ent.Level > ErrorLevel
                then [Effect.sinkWrite buf, Effect.bufFree] ++ c.Sync.1
                else [Effect.sinkWrite buf, Effect.bufFree]) ++ saves,
             outcome := Outcome.returned none }
         | Except.error p =>
           { trace := (if ent.Level > ErrorLevel
                then [Effect.sinkWrite buf, Effect.bufFree] ++ c.Sync.1
                else [Effect.sinkWrite buf, Effect.bufFree]),
             outcome := Outcome.panicked p }
       | _, _ =>
         { trace := (if ent.Level > ErrorLevel
              then [Effect.sinkWrite buf, Effect.bufFree] ++ c.Sync.1
              else [Effect.sinkWrite buf, Effect.bufFree]),
           outcome := Outcome.returned none }) := by
  unfold ioCore.Write
  rw [henc]
  simp only [hw]

/-- The outcome of `Write` does not depend on what `Sync` returns. -/
theorem Write_outcome_ignores_Sync (ErrorLevel : Level) (env : Env) (c : ioCore)
    (ent : Entry) (fields : List Field) (s : Option Error) :
    ({ c with out := { c.out with Sync := s } }.Write ErrorLevel env ent fields).outcome =
      (c.Write ErrorLevel env ent fields).outcome := by
  unfold ioCore.Write
  cases c.enc.EncodeEntry ent fields with
  | error err => rfl
  | ok buf =>
    simp only
    cases (c.out.Write buf).2 with
    | some err => rfl
    | none =>
      simp only
      cases c.outEs <;> cases c.EsClient <;> simp only
      cases SyncEs env buf _ <;> rfl

/-- When encoding and the sink write succeed, `Write` returns nil provided the
mirror is not run (flag off or no client) or the line has at least five
fields. -/
theorem Write_returns_nil (ErrorLevel : Level) (env : Env) (c : ioCore) (ent : Entry)
    (fields : List Field) (buf : String)
    (henc : c.enc.EncodeEntry ent fields = Except.ok buf)
    (hw : (c.out.Write buf).2 = none)
    (hm : c.outEs = false ∨ c.EsClient = none ∨ 5 ≤ (Split buf '\t').length) :
    (c.Write ErrorLevel env ent fields).outcome = Outcome.returned none := by
  rw [Write_of_written ErrorLevel env c ent fields buf henc hw]
  split
  · rename_i client hes hcl
    rcases hm with hm | hm | hm
    · rw [hm] at hes
      cases hes
    · rw [hm] at hcl
      cases hcl
    · rcases hs : Split buf '\t' with _ | ⟨a, _ | ⟨b, _ | ⟨c1, _ | ⟨d, _ | ⟨e, l⟩⟩⟩⟩⟩ <;>
        (rw [hs] at hm; simp at hm)
      rw [SyncEs_of_fields env buf client a b c1 d e l hs]
  · rfl

/-- Claim C1, as amended. When encoding succeeds and the entry level exceeds
`ErrorLevel`: if the sink write succeeds, `Write` calls `Sync` on the sink
exactly once, right after the sink write and the release of the buffer; if the
sink write fails, `Write` returns that write error at once, having made no
`Sync` call (the trace is the sink write and the release of the buffer). -/
theorem Write_sync_after_successful_write (ErrorLevel : Level) (env : Env) (c : ioCore)
    (ent : Entry) (fields : List Field) (buf : String)
    (henc : c.enc.EncodeEntry ent fields = Except.ok buf)
    (hlvl : ent.Level > ErrorLevel) :
    ((c.out.Write buf).2 = none →
      (c.Write ErrorLevel env ent fields).trace.take 3 =
          [Effect.sinkWrite buf, Effect.bufFree, Effect.sinkSync] ∧
        (c.Write ErrorLevel env ent fields).trace.count Effect.sinkSync = 1) ∧
    (∀ err, (c.out.Write buf).2 = some err →
      c.Write ErrorLevel env ent fields =
        { trace := [Effect.sinkWrite buf, Effect.bufFree],
          outcome := Outcome.returned (some err) }) := by
  constructor
  · intro hw
    rw [Write_of_written ErrorLevel env c ent fields buf henc hw]
    simp only [hlvl, if_true, ioCore.Sync]
    split
    · rename_i client
      split
      · rename_i saves hs
        have hsv := SyncEs_only_saves env buf _ saves hs
        constructor
        · simp
        · have : saves.count Effect.sinkSync = 0 := by
            rw [List.count_eq_zero]
            intro hmem
            have := hsv _ hmem
            simp [Effect.isSave] at this
          simp [List.count_append, this, List.count_cons]
      · simp [List.count_cons]
    · simp [List.count_cons]
  · intro err hw
    unfold ioCore.Write
    rw [henc]
    simp only [hw]

/-- Witness for claim C1: a fatal entry on a healthy sink is followed by exactly
one `Sync`, directly after the sink write and the release of the buffer. -/
theorem Write_sync_after_successful_write_witness :
    (constEncoder "hello").EncodeEntry (entryAt 5) [] = Except.ok "hello" ∧
    (entryAt 5).Level > 2 ∧
    ((sinkWith none none).Write "hello").2 = none ∧
    ((NewCore (constEncoder "hello") (sinkWith none none) (atLeast 0) false none).Write 2
          utcEnv (entryAt 5) []).trace.take 3 =
        [Effect.sinkWrite "hello", Effect.bufFree, Effect.sinkSync] ∧
    ((NewCore (constEncoder "hello") (sinkWith none none) (atLeast 0) false none).Write 2
          utcEnv (entryAt 5) []).trace.count Effect.sinkSync = 1 :=
  ⟨rfl, by decide, rfl,
    (Write_sync_after_successful_write 2 utcEnv
      (NewCore (constEncoder "hello") (sinkWith none none) (atLeast 0) false none)
      (entryAt 5) [] "hello" rfl (by decide)).1 rfl⟩

/-- Counterexample to claim C1 as stated: encoding succeeds, the level (5)
exceeds `ErrorLevel` (2) and the sink write fails; `Write` returns the write
error and no `Sync` call was made. -/
theorem Write_failed_write_no_sync :
    (constEncoder "hello").EncodeEntry (entryAt 5) [] = Except.ok "hello" ∧
    (entryAt 5).Level > 2 ∧
    ((sinkWith (some { msg := "disk full" }) none).Write "hello").2 =
      some { msg := "disk full" } ∧
    (NewCore (constEncoder "hello") (sinkWith (some { msg := "disk full" }) none)
        (atLeast 0) false none).Write 2 utcEnv (entryAt 5) [] =
      { trace := [Effect.sinkWrite "hello", Effect.bufFree],
        outcome := Outcome.returned (some { msg := "disk full" }) } ∧
    Effect.sinkSync ∉
      ((NewCore (constEncoder "hello") (sinkWith (some { msg := "disk full" }) none)
        (atLeast 0) false none).Write 2 utcEnv (entryAt 5) []).trace := by
  refine ⟨rfl, by decide, rfl, rfl, by decide⟩

/-- Claim C7. If `EncodeEntry` returns an error, `Write` returns exactly that
error and makes no call at all: no sink write, no `Sync`, no `Save`, whatever
the entry level and the mirror configuration. -/
theorem Write_encoding_failure (ErrorLevel : Level) (env : Env) (c : ioCore) (ent : Entry)
    (fields : List Field) (err : Error)
    (henc : c.enc.EncodeEntry ent fields = Except.error err) :
    c.Write ErrorLevel env ent fields =
      { trace := [], outcome := Outcome.returned (some err) } := by
  unfold ioCore.Write
  rw [henc]

/-- Witness for claim C7: a fatal entry on a mirroring core whose encoder fails. -/
theorem Write_encoding_failure_witness :
    (failingEncoder { msg := "bad field" }).EncodeEntry (entryAt 5) [] =
      Except.error { msg := "bad field" } ∧
    (NewCore (failingEncoder { msg := "bad field" }) (sinkWith none none) (atLeast 0) true
        (some { id := 1 })).Write 2 utcEnv (entryAt 5) [] =
      { trace := [], outcome := Outcome.returned (some { msg := "bad field" }) } :=
  ⟨rfl,
    Write_encoding_failure 2 utcEnv
      (NewCore (failingEncoder { msg := "bad field" }) (sinkWith none none) (atLeast 0) true
        (some { id := 1 }))
      (entryAt 5) [] { msg := "bad field" } rfl⟩

/-- Claim C8. If the mirror flag is false or the mirror client is nil, no call
made by `Write` is a `Save`, for every entry, level, field list and
encoder/sink outcome. -/
theorem Write_no_save_without_mirror (ErrorLevel : Level) (env : Env) (c : ioCore)
    (ent : Entry) (fields : List Field)
    (h : c.outEs = false ∨ c.EsClient = none) :
    ∀ e ∈ (c.Write ErrorLevel env ent fields).trace, e.isSave = false := by
  unfold ioCore.Write
  cases c.enc.EncodeEntry ent fields with
  | error err => simp
  | ok buf =>
    simp only
    cases (c.out.Write buf).2 with
    | some err => simp [Effect.isSave]
    | none =>
      simp only
      rcases h with h | h <;> rw [h] <;>
        (split
         · simp_all
         · by_cases hl : ent.Level > ErrorLevel <;> simp [hl, ioCore.Sync, Effect.isSave])

/-- Witness for claim C8: mirroring enabled but no client, on the trace line. -/
theorem Write_no_save_without_mirror_witness :
    (NewCore (constEncoder traceLine) (sinkWith none none) (atLeast 0) true none).EsClient =
      none ∧
    ∀ e ∈ ((NewCore (constEncoder traceLine) (sinkWith none none) (atLeast 0) true none).Write 2
        utcEnv (entryAt 5) []).trace, e.isSave = false :=
  ⟨rfl,
    Write_no_save_without_mirror 2 utcEnv
      (NewCore (constEncoder traceLine) (sinkWith none none) (atLeast 0) true none)
      (entryAt 5) [] (Or.inr rfl)⟩

/-- Claim C6. `ioCore.Check` returns `ce` unchanged when the level enabler
rejects the entry's level, and otherwise the result of `ce.AddCore(ent, c)`,
whose accumulator is that of `ce` with this core appended once;
`nopCore.Check` always returns `ce` unchanged. -/
theorem Check_adds_core_once (c : ioCore) (ent : Entry) (ce : Option CheckedEntry) :
    (c.Check ent ce =
      if c.Enabled ent.Level then CheckedEntry.AddCore ce ent (Core.io c) else ce) ∧
    (coresOf (c.Check ent ce) =
      if c.Enabled ent.Level then coresOf ce ++ [Core.io c] else coresOf ce) ∧
    nopCore.Check ent ce = ce := by
  refine ⟨rfl, ?_, rfl⟩
  unfold ioCore.Check
  cases c.Enabled ent.Level
  · simp
  · cases ce <;> simp [CheckedEntry.AddCore, coresOf]

/-! ## Cloning -/

/-- Claim C2, what the code does. The core returned by `With` keeps the
receiver's level enabler, sink and mirror flag, but its mirror client is
always nil: `clone` does not copy `EsClient`. So for a core built by `NewCore`
with mirroring enabled and a client, `Write` on the receiver makes a `Save`
call and `Write` on the core returned by `With` makes none. -/
theorem With_drops_mirror_client :
    (∀ (c : ioCore) (fields : List Field),
      (c.With fields).LevelEnabler = c.LevelEnabler ∧
      (c.With fields).out = c.out ∧
      (c.With fields).outEs = c.outEs ∧
      (c.With fields).EsClient = none) ∧
    (NewCore (constEncoder traceLine) (sinkWith none none) (atLeast 0) true
        (some { id := 1 })).EsClient = some { id := 1 } ∧
    ((NewCore (constEncoder traceLine) (sinkWith none none) (atLeast 0) true
        (some { id := 1 })).With []).EsClient = none ∧
    ((NewCore (constEncoder traceLine) (sinkWith none none) (atLeast 0) true
        (some { id := 1 })).Write 2 utcEnv (entryAt 0) []).trace.countP Effect.isSave = 1 ∧
    (((NewCore (constEncoder traceLine) (sinkWith none none) (atLeast 0) true
        (some { id := 1 })).With []).Write 2 utcEnv (entryAt 0) []).trace.countP Effect.isSave
      = 0 := by
  refine ⟨fun c fields => ⟨rfl, rfl, rfl, rfl⟩, rfl, rfl, by decide, by decide⟩

/-! ## The mirror's panic -/

/-- With mirroring enabled and a client, a successfully written line of fewer
than five fields makes `Write` panic. -/
theorem Write_panics_on_short_line (ErrorLevel : Level) (env : Env) (c : ioCore)
    (ent : Entry) (fields : List Field) (buf : String) (client : Client)
    (henc : c.enc.EncodeEntry ent fields = Except.ok buf)
    (hw : (c.out.Write buf).2 = none)
    (hes : c.outEs = true) (hcl : c.EsClient = some client)
    (hshort : (Split buf '\t').length < 5) :
    (c.Write ErrorLevel env ent fields).outcome =
      Outcome.panicked
        (Panic.indexOutOfRange (Split buf '\t').length (Split buf '\t').length) := by
  rw [Write_of_written ErrorLevel env c ent fields buf henc hw, hes, hcl]
  simp only [SyncEs_short_line_panics env buf client hshort]

/-- Claim C3, what the code does. The encoder renders the line `hello` (no
tab), the sink write succeeds: with mirroring disabled `Write` returns nil,
with mirroring enabled and a client `SyncEs` indexes `file[1]` of a one-element
slice and `Write` panics instead of returning. -/
theorem Write_mirror_panics_on_short_line :
    (constEncoder "hello").EncodeEntry (entryAt 0) [] = Except.ok "hello" ∧
    ((sinkWith none none).Write "hello").2 = none ∧
    Split "hello" '\t' = ["hello"] ∧
    (NewCore (constEncoder "hello") (sinkWith none none) (atLeast 0) false
        (some { id := 1 })).Write 2 utcEnv (entryAt 0) [] =
      { trace := [Effect.sinkWrite "hello", Effect.bufFree],
        outcome := Outcome.returned none } ∧
    (NewCore (constEncoder "hello") (sinkWith none none) (atLeast 0) true
        (some { id := 1 })).Write 2 utcEnv (entryAt 0) [] =
      { trace := [Effect.sinkWrite "hello", Effect.bufFree],
        outcome := Outcome.panicked (Panic.indexOutOfRange 1 1) } := by
  refine ⟨rfl, rfl, by decide, by decide, by decide⟩

/-- Claim C5, what the code does. Encoding and the sink write succeed on a
fatal entry of a mirroring core whose encoder renders `hello`: whatever `Sync`
returns, `Write` makes the `Sync` call and then panics in `SyncEs`; it does not
return nil. -/
theorem Write_sync_agnostic_but_panics (s : Option Error) :
    (constEncoder "hello").EncodeEntry (entryAt 5) [] = Except.ok "hello" ∧
    ((sinkWith none s).Write "hello").2 = none ∧
    (NewCore (constEncoder "hello") (sinkWith none s) (atLeast 0) true
        (some { id := 1 })).Write 2 utcEnv (entryAt 5) [] =
      { trace := [Effect.sinkWrite "hello", Effect.bufFree, Effect.sinkSync],
        outcome := Outcome.panicked (Panic.indexOutOfRange 1 1) } := by
  exact ⟨rfl, rfl, rfl⟩

/-! ## The mirror: routing and the document -/

/-- A separator-free field followed by the separator is split off first. -/
theorem splitChars_append (sep : Char) (a rest : List Char) (ha : sep ∉ a) :
    splitChars sep (a ++ sep :: rest) = a :: splitChars sep rest := by
  induction a with
  | nil => simp [splitChars]
  | cons x xs ih =>
    have hx : x ≠ sep := fun h => ha (by simp [h])
    have hxs : sep ∉ xs := fun h => ha (by simp [h])
    simp [splitChars, hx, ih hxs]

/-- A separator-free text is a single field. -/
theorem splitChars_single (sep : Char) (a : List Char) (ha : sep ∉ a) :
    splitChars sep a = [a] := by
  induction a with
  | nil => simp [splitChars]
  | cons x xs ih =>
    have hx : x ≠ sep := fun h => ha (by simp [h])
    have hxs : sep ∉ xs := fun h => ha (by simp [h])
    simp [splitChars, hx, ih hxs]

/-- Five tab-free fields joined by tabs split into exactly those fields. -/
theorem Split_five (f0 f1 f2 f3 f4 : String)
    (h0 : '\t' ∉ f0.data) (h1 : '\t' ∉ f1.data) (h2 : '\t' ∉ f2.data)
    (h3 : '\t' ∉ f3.data) (h4 : '\t' ∉ f4.data) :
    Split (f0 ++ "\t" ++ f1 ++ "\t" ++ f2 ++ "\t" ++ f3 ++ "\t" ++ f4) '\t' =
      [f0, f1, f2, f3, f4] := by
  have e : (f0 ++ "\t" ++ f1 ++ "\t" ++ f2 ++ "\t" ++ f3 ++ "\t" ++ f4).data =
      f0.data ++ '\t' :: (f1.data ++ '\t' :: (f2.data ++ '\t' :: (f3.data ++ '\t' :: f4.data))) := by
    simp [String.data_append]
  unfold Split
  rw [e, splitChars_append _ _ _ h0, splitChars_append _ _ _ h1, splitChars_append _ _ _ h2,
    splitChars_append _ _ _ h3, splitChars_single _ _ h4]
  rfl

/-- Claim C10. On a line of exactly five tab-separated fields whose fourth
field is not `trace`, `SyncEs` makes exactly one `Save` call, on the index
`Ordinary` (which differs from `Trace`), with `LogLevel`, `Src`, `ServerName`
and `Data` the second to fifth fields, `Uid = Tid = Parent = 0` whatever the
payload, and the document's `Time` as the time argument. -/
theorem SyncEs_ordinary (env : Env) (text : String) (esClient : Client)
    (f0 f1 f2 f3 f4 : String)
    (h : Split text '\t' = [f0, f1, f2, f3, f4]) (hcat : f3 ≠ "trace") :
    SyncEs env text esClient =
      Except.ok [Effect.save esClient
        { Time := (ParseInLocation f0 env.Local).1.UnixNano.tdiv 1000000,
          LogLevel := f1, Src := f2, ServerName := f3,
          Uid := 0, Tid := 0, Parent := 0, Data := f4 }
        (Ordinary env) "log" ((ParseInLocation f0 env.Local).1.UnixNano.tdiv 1000000)] ∧
    Ordinary env ≠ Trace env := by
  refine ⟨?_, Ordinary_ne_Trace env⟩
  rw [SyncEs_of_fields env text esClient f0 f1 f2 f3 f4 [] h, if_neg hcat]

/-- Witness for claim C10: the line with category `worker` and payload `hello`,
and a line with category `worker` whose payload is valid correlation JSON. -/
theorem SyncEs_ordinary_witness :
    (Split workerLine '\t' =
        ["2023-01-01 10:00:00.000", "INFO", "main.go:10", "worker", "hello"] ∧
      "worker" ≠ "trace" ∧
      SyncEs (hostEnv 14400) workerLine { id := 1 } =
        Except.ok [Effect.save { id := 1 }
          { Time := 1672552800000, LogLevel := "INFO", Src := "main.go:10",
            ServerName := "worker", Uid := 0, Tid := 0, Parent := 0, Data := "hello" }
          "普通日志10.0.0.5" "log" 1672552800000]) ∧
    SyncEs utcEnv "2023-01-01 10:00:00.000\tINFO\tmain.go:10\tworker\t\x7b\"uid\":7,\"tid\":42,\"parent\":1\x7d"
        { id := 1 } =
      Except.ok [Effect.save { id := 1 }
        { Time := 1672567200000, LogLevel := "INFO", Src := "main.go:10",
          ServerName := "worker", Uid := 0, Tid := 0, Parent := 0,
          Data := tracePayload }
        "普通日志" "log" 1672567200000] :=
  ⟨⟨by decide, by decide,
    (SyncEs_ordinary (hostEnv 14400) workerLine { id := 1 }
      "2023-01-01 10:00:00.000" "INFO" "main.go:10" "worker" "hello"
      (by decide) (by decide)).1⟩,
   (SyncEs_ordinary utcEnv
      "2023-01-01 10:00:00.000\tINFO\tmain.go:10\tworker\t\x7b\"uid\":7,\"tid\":42,\"parent\":1\x7d"
      { id := 1 }
      "2023-01-01 10:00:00.000" "INFO" "main.go:10" "worker" tracePayload
      (by decide) (by decide)).1⟩

/-- A character that is not white space is where skipping stops. -/
theorem skipWs_cons (c : Char) (cs : List Char) (h : isJsonSpace c = false) :
    skipWs (c :: cs) = c :: cs := by
  simp [skipWs, h]

/-- The scanner refuses to open an array or an object when `maxNestingDepth`
of them are already open. -/
theorem scanJson_depth_limit (fuel : Nat) (rest : List Char) :
    scanJson fuel maxNestingDepth Mode.value ('[' :: rest) = none ∧
    scanJson fuel maxNestingDepth Mode.value ('\x7b' :: rest) = none := by
  cases fuel with
  | zero => exact ⟨rfl, rfl⟩
  | succ f =>
    have h1 : skipWs ('[' :: rest) = '[' :: rest := skipWs_cons _ _ (by decide)
    have h2 : skipWs ('\x7b' :: rest) = '\x7b' :: rest := skipWs_cons _ _ (by decide)
    constructor
    · simp [scanJson, h1]
    · simp [scanJson, h2]

end Zapcore
